import Mathlib

/-!
Verification development for Rustalk, a peer-to-peer encrypted chat
application.  The repository ships a TypeScript CLI layer (`src/index.ts`,
`bin/rustalk.ts`, `src/types.ts`) on top of a Rust core library ("reach")
that provides the crypto engine and session manager.  The TypeScript layer
is embedded here directly from its source; the Rust core is not part of the
checked-in sources, so its crypto and session operations are modelled from
the specification (each such definition is marked `Modelled from the spec:`
in its doc comment).

Bytes and bit strings are modelled as `List Bool`; machine counters as `Nat`
with explicit bounds where overflow matters.
-/

set_option maxRecDepth 100000

deriving instance DecidableEq for Except

namespace Rustalk

/- ## Crypto engine (authenticated encryption) -/

/-- Modelled from the spec: the fixed symmetric session-key length.  The
repository documentation names AES-GCM; we use a 128-bit key.  The exact
value is irrelevant to the properties proved below. -/
def keyLen : Nat := 128

/-- Modelled from the spec: a deterministic keystream derived from the key
and nonce, one bit per index, used as the masking stream of the
authenticated cipher.  (The concrete bit function stands in for the block
cipher; only determinism and length matter to the stated properties.) -/
def keystream (key nonce : List Bool) (len : Nat) : List Bool :=
  (List.range len).map (fun i => (key ++ nonce).getD (i % (key.length + nonce.length + 1)) false)

/-- Modelled from the spec: the authentication tag over the ciphertext and
the associated data, bound to the key and nonce.  The spec demands that any
single-bit change of ciphertext, tag or associated data be detected, i.e. an
ideal (collision-free) MAC; we model the ideal MAC as an injective encoding
of its inputs. -/
def mac (key nonce ct ad : List Bool) : List Bool :=
  key ++ nonce ++ ct ++ ad

/-- Errors of the crypto engine, from the spec taxonomy (`CryptoError`:
bad key length, authentication failure). -/
inductive CryptoError where
  | BadKeyLength
  | AuthenticationFailed
deriving DecidableEq

/-- Modelled from the spec: `encrypt(key, nonce, plaintext, associatedData)
→ ciphertext+tag`: authenticated encryption; fails with `CryptoError` if the
key length is wrong. -/
def encrypt (key nonce plaintext ad : List Bool) :
    Except CryptoError (List Bool × List Bool) :=
  if key.length = keyLen then
    let ct := List.zipWith Bool.xor plaintext (keystream key nonce plaintext.length)
    .ok (ct, mac key nonce ct ad)
  else
    .error .BadKeyLength

/-- Modelled from the spec: `decrypt(key, nonce, ciphertext+tag,
associatedData) → plaintext`: fails with `AuthenticationFailed` if the tag
does not verify or the associated data mismatches. -/
def decrypt (key nonce : List Bool) (ctag : List Bool × List Bool) (ad : List Bool) :
    Except CryptoError (List Bool) :=
  if key.length = keyLen then
    if ctag.2 = mac key nonce ctag.1 ad then
      .ok (List.zipWith Bool.xor ctag.1 (keystream key nonce ctag.1.length))
    else
      .error .AuthenticationFailed
  else
    .error .BadKeyLength

/-- Flip the bit at position `i`. -/
def flipBit (l : List Bool) (i : Nat) : List Bool :=
  l.set i (! l.getD i false)

lemma keystream_length (key nonce : List Bool) (len : Nat) :
    (keystream key nonce len).length = len := by
  simp [keystream]

lemma zipWith_xor_cancel (p s : List Bool) (h : s.length = p.length) :
    List.zipWith Bool.xor (List.zipWith Bool.xor p s) s = p := by
  induction p generalizing s with
  | nil => simp
  | cons a p ih =>
    cases s with
    | nil => simp at h
    | cons b s =>
      simp only [List.zipWith]
      have hb : Bool.xor (Bool.xor a b) b = a := by cases a <;> cases b <;> rfl
      simp only [List.length_cons] at h
      rw [hb, ih s (by omega)]

lemma flipBit_length (l : List Bool) (i : Nat) : (flipBit l i).length = l.length := by
  simp [flipBit]

lemma flipBit_ne (l : List Bool) (i : Nat) (h : i < l.length) : flipBit l i ≠ l := by
  intro heq
  have hget := congrArg (fun t => t.getD i false) heq
  simp only [flipBit] at hget
  rw [List.getD_eq_getElem?_getD, List.getElem?_set_self, List.getD_eq_getElem?_getD] at hget
  · rw [List.getElem?_eq_getElem h] at hget
    simp only [Option.map_some, Option.getD_some] at hget
    cases hgd : l[i] <;> simp [hgd] at hget
  · exact h

/-- Injectivity of the ideal MAC in the ciphertext argument (the associated
data suffix being held fixed). -/
lemma mac_inj_ct (key nonce ct ct' ad : List Bool)
    (h : mac key nonce ct ad = mac key nonce ct' ad) : ct = ct' := by
  simp only [mac, List.append_assoc] at h
  exact List.append_cancel_right (List.append_cancel_left (List.append_cancel_left h))

/-- Injectivity of the ideal MAC in the associated-data argument. -/
lemma mac_inj_ad (key nonce ct ad ad' : List Bool)
    (h : mac key nonce ct ad = mac key nonce ct ad') : ad = ad' := by
  simp only [mac, List.append_assoc] at h
  exact List.append_cancel_left (List.append_cancel_left (List.append_cancel_left h))

/- Concrete sample inputs used by the witnesses below. -/

def wKey : List Bool := List.replicate 128 true

def wNonce : List Bool := [true, false, false, true]

def wP : List Bool := [true, true, false]

def wAd : List Bool := [false, true]

def wCt : List Bool := List.zipWith Bool.xor wP (keystream wKey wNonce wP.length)

def wTag : List Bool := mac wKey wNonce wCt wAd

/- ## Key agreement -/

/-- Modelled from the spec: the asymmetric key-agreement group.  The spec
only requires a Diffie-Hellman-style agreement with the symmetry property;
we use modular exponentiation in a small concrete group standing in for the
real curve. -/
def dhModulus : Nat := 2003

/-- Modelled from the spec: the group generator. -/
def dhGen : Nat := 5

/-- Modelled from the spec: derive the public key of a private key. -/
def genPublicKey (priv : Nat) : Nat := dhGen ^ priv % dhModulus

/-- Modelled from the spec: `deriveSharedSecret(localPrivateKey,
remotePublicKey) → sharedSecret`, the asymmetric key agreement. -/
def deriveSharedSecret (localPriv remotePub : Nat) : Nat :=
  remotePub ^ localPriv % dhModulus

/-- An asymmetric keypair. -/
structure Keypair where
  priv : Nat
  pub : Nat
deriving DecidableEq

/-- A keypair is valid when its public key is derived from its private key. -/
def Keypair.valid (kp : Keypair) : Prop := kp.pub = genPublicKey kp.priv

/-- C1: for every session key k, nonce n, plaintext p and associated data
ad, decrypting the result of encrypting p under (k, n, ad) with the same
(k, n, ad) returns exactly p. -/
theorem encrypt_decrypt_roundtrip (key nonce p ad ct tag : List Bool)
    (henc : encrypt key nonce p ad = .ok (ct, tag)) :
    decrypt key nonce (ct, tag) ad = .ok p := by
  by_cases hk : key.length = keyLen
  · rw [encrypt, if_pos hk] at henc
    simp only [Except.ok.injEq, Prod.mk.injEq] at henc
    obtain ⟨hct, htag⟩ := henc
    rw [decrypt, if_pos hk]
    rw [if_pos (by rw [← hct, ← htag])]
    subst hct
    have hlen : (keystream key nonce p.length).length = p.length :=
      keystream_length key nonce p.length
    have hctlen : (List.zipWith Bool.xor p (keystream key nonce p.length)).length = p.length := by
      rw [List.length_zipWith, hlen, Nat.min_self]
    rw [hctlen]
    rw [zipWith_xor_cancel p _ hlen]
  · rw [encrypt, if_neg hk] at henc
    exact absurd henc (by simp)

/-- Witness for C1 at concrete inputs. -/
theorem encrypt_decrypt_roundtrip_witness :
    decrypt wKey wNonce (wCt, wTag) wAd = .ok wP :=
  encrypt_decrypt_roundtrip wKey wNonce wP wAd wCt wTag rfl

/-- C3: if any single bit of the ciphertext, the tag, or the associated
data produced by `encrypt` is flipped, `decrypt` on the modified input
fails with `AuthenticationFailed`. -/
theorem decrypt_rejects_bit_flips (key nonce p ad ct tag : List Bool) (i : Nat)
    (henc : encrypt key nonce p ad = .ok (ct, tag)) :
    (i < ct.length → decrypt key nonce (flipBit ct i, tag) ad = .error .AuthenticationFailed) ∧
    (i < tag.length → decrypt key nonce (ct, flipBit tag i) ad = .error .AuthenticationFailed) ∧
    (i < ad.length → decrypt key nonce (ct, tag) (flipBit ad i) = .error .AuthenticationFailed) := by
  by_cases hk : key.length = keyLen
  case neg =>
    rw [encrypt, if_neg hk] at henc
    exact absurd henc (by simp)
  rw [encrypt, if_pos hk] at henc
  simp only [Except.ok.injEq, Prod.mk.injEq] at henc
  obtain ⟨hct, htag⟩ := henc
  have htag2 : tag = mac key nonce ct ad := by rw [← htag, hct]
  refine ⟨fun hi => ?_, fun hi => ?_, fun hi => ?_⟩
  · rw [decrypt, if_pos hk, if_neg]
    intro hEq
    have : ct = flipBit ct i := mac_inj_ct key nonce ct (flipBit ct i) ad (htag2 ▸ hEq)
    exact flipBit_ne ct i hi this.symm
  · rw [decrypt, if_pos hk, if_neg]
    intro hEq
    exact flipBit_ne tag i hi (hEq.trans htag2.symm)
  · rw [decrypt, if_pos hk, if_neg]
    intro hEq
    have : ad = flipBit ad i := mac_inj_ad key nonce ct ad (flipBit ad i) (htag2 ▸ hEq)
    exact flipBit_ne ad i hi this.symm

/-- Witness for C3 at concrete inputs, flipping bit 0 of each component. -/
theorem decrypt_rejects_bit_flips_witness :
    decrypt wKey wNonce (flipBit wCt 0, wTag) wAd = .error .AuthenticationFailed ∧
    decrypt wKey wNonce (wCt, flipBit wTag 0) wAd = .error .AuthenticationFailed ∧
    decrypt wKey wNonce (wCt, wTag) (flipBit wAd 0) = .error .AuthenticationFailed := by
  have h := decrypt_rejects_bit_flips wKey wNonce wP wAd wCt wTag 0 rfl
  exact ⟨h.1 (by decide), h.2.1 (by decide), h.2.2 (by decide)⟩

/-- C2: for every pair of valid keypairs A and B, both sides of the key
agreement compute the identical shared secret. -/
theorem deriveSharedSecret_symm (A B : Keypair) (hA : A.valid) (hB : B.valid) :
    deriveSharedSecret A.priv B.pub = deriveSharedSecret B.priv A.pub := by
  rw [Keypair.valid] at hA hB
  rw [deriveSharedSecret, deriveSharedSecret, hA, hB, genPublicKey, genPublicKey]
  conv_lhs => rw [← Nat.pow_mod, ← pow_mul]
  conv_rhs => rw [← Nat.pow_mod, ← pow_mul]
  rw [Nat.mul_comm]

/-- Witness for C2 at concrete keypairs with private keys 3 and 4. -/
theorem deriveSharedSecret_symm_witness :
    deriveSharedSecret (Keypair.mk 3 (genPublicKey 3)).priv (Keypair.mk 4 (genPublicKey 4)).pub =
    deriveSharedSecret (Keypair.mk 4 (genPublicKey 4)).priv (Keypair.mk 3 (genPublicKey 3)).pub :=
  deriveSharedSecret_symm (Keypair.mk 3 (genPublicKey 3)) (Keypair.mk 4 (genPublicKey 4)) rfl rfl

/- ## Session manager state machine -/

/-- Failure kinds that drive a session into the terminal `Failed` state. -/
inductive FailureKind where
  | HandshakeTimeout
  | HandshakeAuthenticationFailed
  | ProtocolViolation
deriving DecidableEq

/-- Modelled from the spec: the session state machine states
`Idle → HandshakeInitiated → HandshakeResponded → Established → Closed`,
with the additional terminal `Failed` state. -/
inductive SessionState where
  | Idle
  | HandshakeInitiated
  | HandshakeResponded
  | Established
  | Closed
  | Failed (kind : FailureKind)
deriving DecidableEq

/-- Errors surfaced by session operations, from the spec taxonomy. -/
inductive SessionError where
  | SessionNotEstablished
  | ReplayDetected
  | AuthenticationFailed
  | NonceExhausted
  | BadKeyLength
deriving DecidableEq

/-- Modelled from the spec: the live cryptographic and transport state for
one peer: state, session key, send nonce counter, receive nonce watermark,
handshake start time, and whether the underlying connection is open. -/
structure Session where
  state : SessionState
  sessionKey : List Bool
  sendNonceCounter : Nat
  recvNonceWatermark : Nat
  handshakeStart : Nat
  connOpen : Bool
deriving DecidableEq

/-- A data frame on the wire: `[8-byte nonce][ciphertext][tag]`. -/
structure DataFrame where
  nonce : Nat
  ct : List Bool
  tag : List Bool
deriving DecidableEq

/-- The 8-byte nonce encoded as 64 bits (little-endian bit order). -/
def nonceBits (n : Nat) : List Bool :=
  (List.range 64).map (fun i => Nat.testBit n i)

/-- Upper bound of the 8-byte send nonce counter. -/
def nonceBound : Nat := 2 ^ 64

/-- Associated data bound into data-frame encryption (none beyond the
nonce, which is passed separately). -/
def msgAd : List Bool := []

/-- Modelled from the spec: `sendMessage` is only legal in `Established`;
it encrypts, frames, increments the send nonce and hands the frame to the
peer connection; it fails with `SessionNotEstablished` otherwise, and with
`NonceExhausted` if the send counter would wrap the 8-byte nonce. -/
def sendMessage (s : Session) (plaintext : List Bool) :
    Session × Except SessionError DataFrame :=
  match s.state with
  | .Established =>
    if s.sendNonceCounter + 1 < nonceBound then
      match encrypt s.sessionKey (nonceBits (s.sendNonceCounter + 1)) plaintext msgAd with
      | .ok (ct, tag) =>
        ({ s with sendNonceCounter := s.sendNonceCounter + 1 },
         .ok ⟨s.sendNonceCounter + 1, ct, tag⟩)
      | .error _ => (s, .error .BadKeyLength)
    else
      (s, .error .NonceExhausted)
  | _ => (s, .error .SessionNotEstablished)

/-- Modelled from the spec: `onInboundFrame` is only meaningful in
`Established`; it enforces the nonce watermark (any frame with nonce at or
below the watermark is rejected with `ReplayDetected`), decrypts, raises
the watermark and delivers the plaintext, or fails with
`AuthenticationFailed`. -/
def onInboundFrame (s : Session) (f : DataFrame) :
    Session × Except SessionError (List Bool) :=
  match s.state with
  | .Established =>
    if f.nonce ≤ s.recvNonceWatermark then
      (s, .error .ReplayDetected)
    else
      match decrypt s.sessionKey (nonceBits f.nonce) (f.ct, f.tag) msgAd with
      | .ok pt => ({ s with recvNonceWatermark := f.nonce }, .ok pt)
      | .error _ => (s, .error .AuthenticationFailed)
  | _ => (s, .error .SessionNotEstablished)

/-- Modelled from the spec: `close()` transitions to `Closed` from any
state, discards the session key and releases the peer connection. -/
def close (s : Session) : Session :=
  { s with state := .Closed, sessionKey := [], connOpen := false }

/-- Modelled from the spec: `initiateHandshake` opens a peer connection and
transitions `Idle → HandshakeInitiated`, recording the start time. -/
def initiateHandshake (s : Session) (now : Nat) : Session :=
  match s.state with
  | .Idle => { s with state := .HandshakeInitiated, handshakeStart := now, connOpen := true }
  | _ => s

/-- Modelled from the spec: responder-side handshake entry
(`Idle → HandshakeResponded`), or initiator progress after receiving the
peer response (`HandshakeInitiated → HandshakeResponded`). -/
def onInboundHandshake (s : Session) (now : Nat) : Session :=
  match s.state with
  | .Idle => { s with state := .HandshakeResponded, handshakeStart := now, connOpen := true }
  | .HandshakeInitiated => { s with state := .HandshakeResponded }
  | _ => s

/-- Modelled from the spec: `onConfirmation` verifies the peer confirmation
under the derived session key; success installs the key and enters
`Established`, mismatch enters `Failed` with
`HandshakeAuthenticationFailed` and tears the connection down. -/
def onConfirmation (s : Session) (confirmOk : Bool) (key : List Bool) : Session :=
  match s.state with
  | .HandshakeResponded =>
    if confirmOk then
      { s with state := .Established, sessionKey := key }
    else
      { s with state := .Failed .HandshakeAuthenticationFailed, sessionKey := [],
               connOpen := false }
  | _ => s

/-- Whether the session is waiting inside the handshake. -/
def handshakePending (st : SessionState) : Bool :=
  match st with
  | .HandshakeInitiated => true
  | .HandshakeResponded => true
  | _ => false

/-- Modelled from the spec: the handshake timeout check — a session still
waiting in the handshake past the configured window transitions to `Failed`
with `HandshakeTimeout` and the underlying connection is closed. -/
def checkHandshakeTimeout (s : Session) (now window : Nat) : Session :=
  if handshakePending s.state = true ∧ s.handshakeStart + window < now then
    { s with state := .Failed .HandshakeTimeout, sessionKey := [], connOpen := false }
  else s

/-- The session operations, used to state invariants that hold across every
operation of the session manager. -/
inductive SessionOp where
  | initiate (now : Nat)
  | inboundHandshake (now : Nat)
  | confirmation (confirmOk : Bool) (key : List Bool)
  | send (plaintext : List Bool)
  | inbound (f : DataFrame)
  | timeoutCheck (now window : Nat)
  | closeOp

/-- The state reached after one session operation. -/
def applyOp (s : Session) (op : SessionOp) : Session :=
  match op with
  | .initiate now => initiateHandshake s now
  | .inboundHandshake now => onInboundHandshake s now
  | .confirmation confirmOk key => onConfirmation s confirmOk key
  | .send p => (sendMessage s p).1
  | .inbound f => (onInboundFrame s f).1
  | .timeoutCheck now window => checkHandshakeTimeout s now window
  | .closeOp => close s

/-- Repeated timeout checks at the given clock readings. -/
def runTimeoutChecks (s : Session) (window : Nat) (times : List Nat) : Session :=
  times.foldl (fun t now => checkHandshakeTimeout t now window) s

/- Concrete sessions and frames used by the witnesses below. -/

def wEstab : Session :=
  { state := .Established, sessionKey := wKey, sendNonceCounter := 0,
    recvNonceWatermark := 0, handshakeStart := 0, connOpen := true }

def wEstab5 : Session := { wEstab with recvNonceWatermark := 5 }

def wIdle : Session :=
  { state := .Idle, sessionKey := [], sendNonceCounter := 0,
    recvNonceWatermark := 0, handshakeStart := 0, connOpen := false }

def wPend : Session :=
  { state := .HandshakeInitiated, sessionKey := [], sendNonceCounter := 0,
    recvNonceWatermark := 0, handshakeStart := 0, connOpen := true }

def wCt1 : List Bool := List.zipWith Bool.xor wP (keystream wKey (nonceBits 1) wP.length)

/-- A well-formed data frame with nonce 1 encrypting `wP` under `wKey`. -/
def wFrame1 : DataFrame := ⟨1, wCt1, mac wKey (nonceBits 1) wCt1 msgAd⟩

/-- A (content-irrelevant) frame with nonce 3. -/
def wFrame3 : DataFrame := ⟨3, [], []⟩

/- Helper lemmas about the session operations. -/

lemma sendMessage_watermark (s : Session) (p : List Bool) :
    ((sendMessage s p).1).recvNonceWatermark = s.recvNonceWatermark := by
  unfold sendMessage
  cases s.state <;> simp
  split
  · split <;> simp
  · simp

lemma onInboundFrame_watermark_le (s : Session) (f : DataFrame) :
    s.recvNonceWatermark ≤ ((onInboundFrame s f).1).recvNonceWatermark := by
  unfold onInboundFrame
  cases s.state <;> simp
  split
  · simp
  · rename_i hgt
    split <;> simp
    omega

lemma replay_rejected (s : Session) (f : DataFrame)
    (hs : s.state = .Established) (hn : f.nonce ≤ s.recvNonceWatermark) :
    onInboundFrame s f = (s, .error .ReplayDetected) := by
  unfold onInboundFrame
  rw [hs]
  simp [hn]

lemma accepted_then_replay (s s' : Session) (f : DataFrame) (pt : List Bool)
    (h : onInboundFrame s f = (s', .ok pt)) :
    (onInboundFrame s' f).2 = .error .ReplayDetected := by
  unfold onInboundFrame at h
  split at h
  · rename_i hs
    split at h
    · simp at h
    · rename_i hn
      split at h
      · simp only [Prod.mk.injEq, Except.ok.injEq] at h
        obtain ⟨hs', hpt⟩ := h
        subst hs'
        simp [onInboundFrame, hs]
      · simp at h
  · simp at h

lemma checkHandshakeTimeout_not_pending (s : Session) (now window : Nat)
    (h : handshakePending s.state = false) : checkHandshakeTimeout s now window = s := by
  unfold checkHandshakeTimeout
  rw [if_neg]
  simp [h]

lemma runTimeoutChecks_cons (s : Session) (window t : Nat) (rest : List Nat) :
    runTimeoutChecks s window (t :: rest) =
    runTimeoutChecks (checkHandshakeTimeout s t window) window rest := rfl

lemma runTimeoutChecks_stable (s : Session) (window : Nat) (times : List Nat)
    (h : handshakePending s.state = false) : runTimeoutChecks s window times = s := by
  induction times with
  | nil => rfl
  | cons t rest ih =>
    rw [runTimeoutChecks_cons, checkHandshakeTimeout_not_pending s t window h]
    exact ih

lemma runTimeoutChecks_fires (s : Session) (window : Nat) (times : List Nat)
    (hp : handshakePending s.state = true)
    (ht : ∃ t ∈ times, s.handshakeStart + window < t) :
    (runTimeoutChecks s window times).state = .Failed .HandshakeTimeout ∧
    (runTimeoutChecks s window times).connOpen = false := by
  induction times with
  | nil => simp at ht
  | cons t rest ih =>
    rw [runTimeoutChecks_cons]
    by_cases hfire : s.handshakeStart + window < t
    · have hcheck : checkHandshakeTimeout s t window =
          { s with state := .Failed .HandshakeTimeout, sessionKey := [], connOpen := false } := by
        unfold checkHandshakeTimeout
        rw [if_pos ⟨hp, hfire⟩]
      rw [hcheck, runTimeoutChecks_stable _ window rest (by simp [handshakePending])]
      exact ⟨rfl, rfl⟩
    · have hcheck : checkHandshakeTimeout s t window = s := by
        unfold checkHandshakeTimeout
        rw [if_neg]
        intro hc
        exact hfire hc.2
      rw [hcheck]
      apply ih
      obtain ⟨t0, hmem, hlt⟩ := ht
      rcases List.mem_cons.mp hmem with heq | hmem2
      · exact absurd (heq ▸ hlt) hfire
      · exact ⟨t0, hmem2, hlt⟩

/-- C4: the receive-nonce watermark is non-decreasing across every session
operation; in an Established session any inbound frame with nonce at or
below the watermark is rejected with `ReplayDetected` and the session is
unchanged; and a previously-accepted inbound frame, resubmitted, is
rejected with `ReplayDetected`. -/
theorem recvWatermark_monotone_replay_rejected (s s' : Session) (op : SessionOp)
    (f : DataFrame) (pt : List Bool) :
    (s.recvNonceWatermark ≤ (applyOp s op).recvNonceWatermark) ∧
    (s.state = .Established → f.nonce ≤ s.recvNonceWatermark →
      onInboundFrame s f = (s, .error .ReplayDetected)) ∧
    (onInboundFrame s f = (s', .ok pt) →
      (onInboundFrame s' f).2 = .error .ReplayDetected) := by
  refine ⟨?_, replay_rejected s f, accepted_then_replay s s' f pt⟩
  cases op with
  | initiate now =>
    simp only [applyOp, initiateHandshake]
    cases s.state <;> simp
  | inboundHandshake now =>
    simp only [applyOp, onInboundHandshake]
    cases s.state <;> simp
  | confirmation confirmOk key =>
    simp only [applyOp, onConfirmation]
    cases s.state <;> simp
    split <;> simp
  | send p =>
    simp only [applyOp]
    rw [sendMessage_watermark]
  | inbound g =>
    simp only [applyOp]
    exact onInboundFrame_watermark_le s g
  | timeoutCheck now window =>
    simp only [applyOp, checkHandshakeTimeout]
    split <;> simp
  | closeOp =>
    simp [applyOp, close]

/-- Witness for C4 at concrete sessions: a close operation preserves the
watermark, a stale nonce is rejected, and a genuinely accepted frame is
rejected on resubmission. -/
theorem recvWatermark_monotone_replay_rejected_witness :
    (wEstab5.recvNonceWatermark ≤ (applyOp wEstab5 .closeOp).recvNonceWatermark) ∧
    onInboundFrame wEstab5 wFrame3 = (wEstab5, .error .ReplayDetected) ∧
    (onInboundFrame { wEstab with recvNonceWatermark := 1 } wFrame1).2 =
      .error .ReplayDetected := by
  refine ⟨(recvWatermark_monotone_replay_rejected wEstab5 wEstab5 .closeOp wFrame3 wP).1,
    (recvWatermark_monotone_replay_rejected wEstab5 wEstab5 .closeOp wFrame3 wP).2.1
      (by decide) (by decide),
    (recvWatermark_monotone_replay_rejected wEstab { wEstab with recvNonceWatermark := 1 }
      .closeOp wFrame1 wP).2.2 (by decide)⟩

/-- C5: `sendMessage` succeeds only in `Established` (incrementing the send
nonce and leaving the state machine in `Established`), and in every other
state fails with `SessionNotEstablished`, leaving the session unchanged. -/
theorem sendMessage_established_only (s : Session) (p : List Bool) :
    (∀ s' f, sendMessage s p = (s', .ok f) →
      s.state = .Established ∧ s'.sendNonceCounter = s.sendNonceCounter + 1 ∧
      s'.state = s.state) ∧
    (s.state ≠ .Established → sendMessage s p = (s, .error .SessionNotEstablished)) := by
  constructor
  · intro s' f h
    unfold sendMessage at h
    cases hs : s.state <;> rw [hs] at h <;> simp at h
    refine ⟨rfl, ?_⟩
    by_cases hb : s.sendNonceCounter + 1 < nonceBound
    · rw [if_pos hb] at h
      revert h
      split
      · intro h
        simp only [Prod.mk.injEq] at h
        obtain ⟨hs', _⟩ := h
        subst hs'
        exact ⟨rfl, rfl⟩
      · intro h
        simp at h
    · rw [if_neg hb] at h
      simp at h
  · intro hne
    unfold sendMessage
    cases hs : s.state <;> simp
    exact absurd hs hne

/-- Witness for C5: sending succeeds from a concrete Established session
and fails with `SessionNotEstablished` from a concrete Idle session. -/
theorem sendMessage_established_only_witness :
    (wEstab.state = .Established ∧
      ((sendMessage wEstab wP).1).sendNonceCounter = wEstab.sendNonceCounter + 1 ∧
      ((sendMessage wEstab wP).1).state = wEstab.state) ∧
    sendMessage wIdle wP = (wIdle, .error .SessionNotEstablished) :=
  ⟨(sendMessage_established_only wEstab wP).1 (sendMessage wEstab wP).1
      ⟨1, wCt1, mac wKey (nonceBits 1) wCt1 msgAd⟩ (by decide),
   (sendMessage_established_only wIdle wP).2 (by decide)⟩

/-- C8: a session still waiting in the handshake past the configured window
transitions to `Failed` with `HandshakeTimeout` and the connection is
closed; under repeated timeout checks with no peer response, once the clock
passes the window the session is no longer in `HandshakeInitiated` or
`HandshakeResponded`. -/
theorem handshake_timeout_fails (s : Session) (now window : Nat) (times : List Nat) :
    (handshakePending s.state = true → s.handshakeStart + window < now →
      checkHandshakeTimeout s now window =
        { s with state := .Failed .HandshakeTimeout, sessionKey := [], connOpen := false }) ∧
    (handshakePending s.state = true → (∃ t ∈ times, s.handshakeStart + window < t) →
      (runTimeoutChecks s window times).state = .Failed .HandshakeTimeout ∧
      (runTimeoutChecks s window times).connOpen = false ∧
      handshakePending (runTimeoutChecks s window times).state = false) := by
  constructor
  · intro hp hlate
    unfold checkHandshakeTimeout
    rw [if_pos ⟨hp, hlate⟩]
  · intro hp ht
    obtain ⟨h1, h2⟩ := runTimeoutChecks_fires s window times hp ht
    exact ⟨h1, h2, by rw [h1]; rfl⟩

/-- Witness for C8: a handshake begun at time 0 with window 10, checked at
times 5 and 20. -/
theorem handshake_timeout_fails_witness :
    (checkHandshakeTimeout wPend 20 10 =
      { wPend with state := .Failed .HandshakeTimeout, sessionKey := [], connOpen := false }) ∧
    (runTimeoutChecks wPend 10 [5, 20]).state = .Failed .HandshakeTimeout ∧
    (runTimeoutChecks wPend 10 [5, 20]).connOpen = false ∧
    handshakePending (runTimeoutChecks wPend 10 [5, 20]).state = false := by
  have h := handshake_timeout_fails wPend 20 10 [5, 20]
  exact ⟨h.1 (by decide) (by decide), h.2 (by decide) (by decide)⟩

/- ## TypeScript data model (src/types.ts) -/

/-- Embedded from `src/types.ts`: the `messageType` union of the `Message`
interface is the string literal union `text | file | system`. -/
inductive MessageType where
  | text
  | file
  | system
deriving DecidableEq

/-- The TypeScript string literal denoting each message type. -/
def MessageType.literal : MessageType → String
  | .text => "text"
  | .file => "file"
  | .system => "system"

/-- Embedded from `src/types.ts`: the `Message` interface (`timestamp`
modelled as milliseconds since epoch). -/
structure Message where
  id : String
  fromUserId : String
  toUserId : String
  content : String
  timestamp : Nat
  encrypted : Bool
  messageType : MessageType
deriving DecidableEq

/-- Embedded from `src/types.ts`: the `PeerStatus` interface; the tracked
status of a peer is the boolean `isOnline` (`responseTime` is optional). -/
structure PeerStatus where
  userId : String
  isOnline : Bool
  lastSeen : Nat
  responseTime : Option Nat
deriving DecidableEq

/-- The status vocabulary used by the spec for a peer. -/
inductive StatusVal where
  | Unknown
  | Online
  | Offline
deriving DecidableEq

/-- The status value represented by a `PeerStatus` record: the boolean
`isOnline` maps to `Online` or `Offline`. -/
def statusOf (p : PeerStatus) : StatusVal :=
  if p.isOnline then .Online else .Offline

/-- C6 counterexample: the message kinds are not `text`, `system`, `ack` —
the concrete kind `file` is representable and is none of these. -/
theorem message_kind_text_system_ack_cex :
    ¬ (∀ m : Message, m.messageType.literal = "text" ∨ m.messageType.literal = "system" ∨
        m.messageType.literal = "ack") := by
  intro h
  have hfile := h ⟨"1", "a", "b", "hi", 0, false, .file⟩
  simp [MessageType.literal] at hfile

/-- C6 amended: every `Message` kind is exactly one of the three kinds
`text`, `file`, `system`, and no other kind (in particular not `ack`) is
representable at the message interface. -/
theorem message_kind_text_file_system :
    (∀ m : Message, m.messageType.literal = "text" ∨ m.messageType.literal = "file" ∨
       m.messageType.literal = "system") ∧
    (∀ s : String, (∃ k : MessageType, k.literal = s) ↔
       (s = "text" ∨ s = "file" ∨ s = "system")) := by
  constructor
  · intro m
    cases m.messageType <;> simp [MessageType.literal]
  · intro s
    constructor
    · rintro ⟨k, rfl⟩
      cases k <;> simp [MessageType.literal]
    · rintro (rfl | rfl | rfl)
      exacts [⟨.text, rfl⟩, ⟨.file, rfl⟩, ⟨.system, rfl⟩]

/-- C7 counterexample: the tracked peer status does not range over three
values — no `PeerStatus` record represents `Unknown`, since the tracked
status is the boolean `isOnline`. -/
theorem peer_status_three_values_cex :
    ¬ (∀ v : StatusVal, ∃ p : PeerStatus, statusOf p = v) := by
  intro h
  obtain ⟨p, hp⟩ := h .Unknown
  by_cases hb : p.isOnline <;> simp [statusOf, hb] at hp

/-- C7 amended: the tracked peer status ranges exactly over the two values
`Online` and `Offline` (both are realized, `Unknown` is not representable);
hence any liveness-probe result expressed as a `PeerStatus` is in
the set of `Online` and `Offline`. -/
theorem peer_status_two_values :
    (∀ p : PeerStatus, statusOf p = .Online ∨ statusOf p = .Offline) ∧
    (∃ p : PeerStatus, statusOf p = .Online) ∧
    (∃ p : PeerStatus, statusOf p = .Offline) ∧
    ¬ (∃ p : PeerStatus, statusOf p = .Unknown) := by
  refine ⟨?_, ⟨⟨"u", true, 0, none⟩, rfl⟩, ⟨⟨"u", false, 0, none⟩, rfl⟩, ?_⟩
  · intro p
    by_cases hb : p.isOnline <;> simp [statusOf, hb]
  · rintro ⟨p, hp⟩
    by_cases hb : p.isOnline <;> simp [statusOf, hb] at hp

/- ## TypeScript CLI (src/index.ts) -/

/-- An observable effect of a CLI command action. -/
inductive Eff where
  | outLine (s : String)
  | errLine (s : String)
  | exitProc (code : Nat)
  | execCmd (cmd : String)
deriving DecidableEq

/-- Embedded from `src/index.ts`: the error text printed by `connect` and
`status` when the Rust binary is missing. -/
def missingBinaryMsg : String := "Rust binary not found. Run \"rustalk start\" first."

/-- Embedded from `src/index.ts`: the text printed by `start` before it
falls back to building the binary. -/
def buildingMsg : String := "Rust binary not found. Building..."

/-- Embedded from `src/index.ts` (`connect` command action): if the Rust
binary was not found at startup, print an error and exit with code 1;
otherwise run the binary, printing an error if the run fails.
`hasRustBinary` is the `existsSync` check done at startup, `execOk` whether
`execSync` succeeds. -/
def connectAction (hasRustBinary : Bool) (rustBinary address : String)
    (execOk : Bool) : List Eff :=
  if hasRustBinary = false then
    [.errLine missingBinaryMsg, .exitProc 1]
  else
    [.outLine ("Connecting to peer: " ++ address),
     .execCmd (rustBinary ++ " connect " ++ address)] ++
    (if execOk then [] else [.errLine "Connection failed"])

/-- Embedded from `src/index.ts` (`status` command action): if the Rust
binary was not found at startup, print an error and exit with code 1;
otherwise run the binary. -/
def statusAction (hasRustBinary : Bool) (rustBinary : String) (execOk : Bool) : List Eff :=
  if hasRustBinary = false then
    [.errLine missingBinaryMsg, .exitProc 1]
  else
    [.execCmd ("\"" ++ rustBinary ++ "\" status")] ++
    (if execOk then [] else [.errLine "Status check failed"])

/-- Embedded from `src/index.ts` (`start` command action, after the
missing-binary branch): announce the start and run the binary. -/
def startRun (rustBinary email password port : String) (execOk : Bool) : List Eff :=
  [.outLine ("Starting Rustalk with email: " ++ email),
   .execCmd (rustBinary ++ " --email \"" ++ email ++ "\" --password \"" ++ password ++
             "\" --port " ++ port)] ++
  (if execOk then [] else [.errLine "Error starting Rustalk"])

/-- Embedded from `src/index.ts` (`start` command action): if the Rust
binary was not found at startup, attempt `cargo build --release`; on build
failure print an error and exit with code 1, otherwise continue and run
the binary. -/
def startAction (hasRustBinary buildOk : Bool)
    (rustBinary email password port : String) (execOk : Bool) : List Eff :=
  if hasRustBinary = false then
    [.outLine buildingMsg, .execCmd "cargo build --release"] ++
    (if buildOk then startRun rustBinary email password port execOk
     else [.errLine "Failed to build Rust binary", .exitProc 1])
  else
    startRun rustBinary email password port execOk

/-- C9: with the Rust binary absent at startup, `connect` and `status`
print an error and exit with code 1 without ever executing a command,
while `start` instead attempts `cargo build --release` (its first executed
command) and, when the build succeeds, goes on to run the binary. -/
theorem cli_requires_binary (rustBinary address email password port : String)
    (execOk buildOk : Bool) :
    (connectAction false rustBinary address execOk =
        [.errLine missingBinaryMsg, .exitProc 1] ∧
      ∀ c, Eff.execCmd c ∉ connectAction false rustBinary address execOk) ∧
    (statusAction false rustBinary execOk =
        [.errLine missingBinaryMsg, .exitProc 1] ∧
      ∀ c, Eff.execCmd c ∉ statusAction false rustBinary execOk) ∧
    ((startAction false buildOk rustBinary email password port execOk).take 2 =
        [.outLine buildingMsg, .execCmd "cargo build --release"]) ∧
    (Eff.execCmd (rustBinary ++ " --email \"" ++ email ++ "\" --password \"" ++ password ++
        "\" --port " ++ port) ∈ startAction false true rustBinary email password port execOk) := by
  refine ⟨⟨rfl, ?_⟩, ⟨rfl, ?_⟩, ?_, ?_⟩
  · intro c
    simp [connectAction]
  · intro c
    simp [statusAction]
  · cases buildOk <;> rfl
  · simp [startAction, startRun]

/- ## Unified launcher (bin/rustalk.ts) -/

/-- Embedded from `bin/rustalk.ts`: the local development candidate path
for the `rus` binary. -/
def rusLocalPath (dirname : String) (isWin : Bool) : String :=
  dirname ++ "/../target/release/" ++ (if isWin then "rus.exe" else "rus")

/-- Embedded from `bin/rustalk.ts`: the npm global install candidate path
for the `rus` binary. -/
def rusGlobalPath (dirname : String) (isWin : Bool) : String :=
  dirname ++ "/" ++ (if isWin then "rus.exe" else "rus")

/-- Embedded from `bin/rustalk.ts` (`possible_paths`): the candidate
locations, ending with the bare name `rus` resolved via the system PATH. -/
def rusCandidatePaths (dirname : String) (isWin : Bool) : List String :=
  [rusLocalPath dirname isWin, rusGlobalPath dirname isWin, "rus"]

/-- Embedded from `bin/rustalk.ts` (`findRusBinary` loop): return the first
candidate that is the bare name `rus` or exists on the filesystem; after
the loop, fall back to `rus`.  The filesystem is abstracted as the
predicate `fsExists`. -/
def findRusBinaryGo (fsExists : String → Bool) : List String → String
  | [] => "rus"
  | p :: rest => if p = "rus" ∨ fsExists p = true then p else findRusBinaryGo fsExists rest

/-- Embedded from `bin/rustalk.ts`: `findRusBinary`. -/
def findRusBinary (fsExists : String → Bool) (dirname : String) (isWin : Bool) : String :=
  findRusBinaryGo fsExists (rusCandidatePaths dirname isWin)

lemma rusLocalPath_ne_rus (dirname : String) (isWin : Bool) :
    rusLocalPath dirname isWin ≠ "rus" := by
  intro h
  have hl := congrArg String.length h
  rw [rusLocalPath, String.length_append, String.length_append] at hl
  have h19 : ("/../target/release/" : String).length = 19 := rfl
  have h3 : ("rus" : String).length = 3 := rfl
  have h7 : ("rus.exe" : String).length = 7 := rfl
  cases isWin <;> simp at hl <;> omega

lemma rusGlobalPath_ne_rus (dirname : String) (isWin : Bool) :
    rusGlobalPath dirname isWin ≠ "rus" := by
  intro h
  have hl := congrArg String.length h
  rw [rusGlobalPath, String.length_append, String.length_append] at hl
  have h1 : ("/" : String).length = 1 := rfl
  have h3 : ("rus" : String).length = 3 := rfl
  have h7 : ("rus.exe" : String).length = 7 := rfl
  cases isWin <;> simp at hl <;> omega

/-- C10: `findRusBinary` is total and never aborts: it returns the first
candidate path that exists on the filesystem, or the literal `rus` PATH
fallback when neither candidate file exists, and its result is always a
non-empty string. -/
theorem findRusBinary_first_existing_or_fallback (fsExists : String → Bool)
    (dirname : String) (isWin : Bool) :
    (findRusBinary fsExists dirname isWin =
      if fsExists (rusLocalPath dirname isWin) = true then rusLocalPath dirname isWin
      else if fsExists (rusGlobalPath dirname isWin) = true then rusGlobalPath dirname isWin
      else "rus") ∧
    0 < (findRusBinary fsExists dirname isWin).length := by
  have hchar : findRusBinary fsExists dirname isWin =
      if fsExists (rusLocalPath dirname isWin) = true then rusLocalPath dirname isWin
      else if fsExists (rusGlobalPath dirname isWin) = true then rusGlobalPath dirname isWin
      else "rus" := by
    rw [findRusBinary, rusCandidatePaths]
    by_cases hf0 : fsExists (rusLocalPath dirname isWin) = true
    · rw [findRusBinaryGo, if_pos (Or.inr hf0), if_pos hf0]
    · rw [findRusBinaryGo, if_neg ?_, if_neg hf0]
      · by_cases hf1 : fsExists (rusGlobalPath dirname isWin) = true
        · rw [findRusBinaryGo, if_pos (Or.inr hf1), if_pos hf1]
        · rw [findRusBinaryGo, if_neg ?_, if_neg hf1]
          · rw [findRusBinaryGo, if_pos (Or.inl rfl)]
          · rintro (h | h)
            · exact rusGlobalPath_ne_rus dirname isWin h
            · exact hf1 h
      · rintro (h | h)
        · exact rusLocalPath_ne_rus dirname isWin h
        · exact hf0 h
  refine ⟨hchar, ?_⟩
  rw [hchar]
  have h19 : ("/../target/release/" : String).length = 19 := rfl
  have h3 : ("rus" : String).length = 3 := rfl
  have h7 : ("rus.exe" : String).length = 7 := rfl
  have h1 : ("/" : String).length = 1 := rfl
  split
  · rw [rusLocalPath, String.length_append, String.length_append]
    cases isWin <;> simp <;> omega
  split
  · rw [rusGlobalPath, String.length_append, String.length_append]
    cases isWin <;> simp <;> omega
  · omega

end Rustalk
